import Mathlib

/-!
Verification development for the AWS Transcribe integration notebook
(`aws_transcribe_integration_example.py`).

The notebook's components are shallowly embedded as executable Lean
functions:

* the S3 lister `get_unprocessed_audio_files` (listing response and the
  set of already-processed file keys are passed in as data; the
  `try/except` around reading the results table is modelled by an
  `Option` — `none` means the table does not exist);
* the job submitter `start_transcribe_job` (the Transcribe client is an
  oracle `TranscribeRequest → Except String Unit`; a raised exception is
  the `.error` case);
* the poll loop `poll_for_completion` together with
  `check_transcription_status` (the Transcribe status endpoint is an
  oracle `String → Nat → Except String StatusInfo`, indexed by job name
  and by the poll round at which the query is made; `.error` models a
  raised exception).  `time.time() - start_time` is modelled by an
  `elapsed` counter that advances by `poll_interval` at each
  `time.sleep(poll_interval)`; status queries themselves take no model
  time.  The Python `while` loop is embedded with an explicit fuel of
  `max_wait_seconds + 1`, which is an upper bound on the number of
  iterations whenever `poll_interval ≥ 1` (each sleeping iteration
  advances `elapsed` by at least 1 and the loop stops once
  `elapsed ≥ max_wait_seconds`), so for `poll_interval ≥ 1` the fuel
  never runs out and the embedding agrees with the source loop;
* the result parser `parse_transcription_result` over a `JValue` model
  of Python/JSON values, where `jgetD` models `dict.get(key, default)`
  (raising `AttributeError` on non-dicts) and `jindex0` models `x[0]`;
  the HTTP fetch of the transcript document is factored out as an
  oracle `String → JValue` from transcript URI to fetched document;
* the `transcription_records` batch loop, whose per-job `try/except`
  makes each job contribute either one record or nothing.

Python strings are Lean `String`s; `str.split(sep)[-1]` is embedded as
`after_last` (the suffix after the last separator), `str.lower()` as
ASCII lowering `lower_ascii`, `str.replace(a, b)` for one-character
patterns as `replace_char`, and `str.endswith` as `ends_with`.
Timestamps (`datetime.now()`, `int(time.time())`) are Nat parameters.
-/

/-! ## String helpers modelling the Python string operations used -/

/-- Chars after the last occurrence of `sep`, i.e. `s.split(sep)[-1]`:
the accumulator is reset each time `sep` is seen. -/
def splitLastAux (sep : Char) : List Char → List Char → List Char
  | [], acc => acc.reverse
  | c :: cs, acc =>
    if c = sep then splitLastAux sep cs [] else splitLastAux sep cs (c :: acc)

/-- Python `s.split(sep)[-1]` for a one-character separator. -/
def after_last (sep : Char) (s : String) : String :=
  String.mk (splitLastAux sep s.data [])

/-- ASCII lower-casing of one character (the file extensions involved
are ASCII, so this matches Python `str.lower()` on them). -/
def lowerChar (c : Char) : Char :=
  if 'A' ≤ c ∧ c ≤ 'Z' then Char.ofNat (c.toNat + 32) else c

/-- Python `s.lower()` restricted to ASCII. -/
def lower_ascii (s : String) : String :=
  String.mk (s.data.map lowerChar)

/-- Python `s.replace(a, b)` for one-character `a`, `b`. -/
def replace_char (a b : Char) (s : String) : String :=
  String.mk (s.data.map (fun c => if c = a then b else c))

/-- Python `s.endswith(suffix)`. -/
def ends_with (s suffix : String) : Bool :=
  List.isSuffixOf suffix.data s.data

/-! ## Configuration constants (notebook `Configuration` cell) -/

def audio_bucket : String := "my-audio-files"

def transcribe_output_bucket : String := "my-transcribe-output"

/-! ## Object store lister: `get_unprocessed_audio_files` -/

/-- One object of the S3 `list_objects_v2` response (`Key`, `Size`,
`LastModified`). -/
structure S3Object where
  key : String
  size : Nat
  last_modified : Nat
  deriving Repr, DecidableEq

/-- One row of the `audio_files` list built by the lister. -/
structure AudioFile where
  file_key : String
  file_name : String
  size_bytes : Nat
  last_modified : Nat
  deriving Repr, DecidableEq

/-- Python `key.endswith(('.mp3', '.mp4', '.wav', '.flac', '.m4a', '.ogg', '.webm'))`. -/
def isAudioKey (key : String) : Bool :=
  ends_with key ".mp3" || ends_with key ".mp4" || ends_with key ".wav" ||
  ends_with key ".flac" || ends_with key ".m4a" || ends_with key ".ogg" ||
  ends_with key ".webm"

/-- Python `key.split('/')[-1]`. -/
def file_name_of (key : String) : String := after_last '/' key

/-- The `audio_files` list: filter the listing (`none` models a response
with no `Contents` key) down to audio keys and project the row fields. -/
def audio_files_of (contents : Option (List S3Object)) : List AudioFile :=
  match contents with
  | none => []
  | some objs =>
    objs.filterMap (fun obj =>
      if isAudioKey obj.key then
        some { file_key := obj.key, file_name := file_name_of obj.key,
               size_bytes := obj.size, last_modified := obj.last_modified }
      else none)

/-- Source `get_unprocessed_audio_files`: empty listing short-circuits; otherwise
a `left_anti` join on `file_key` against the distinct processed keys.
`processedKeys = none` models the `except:` branch where the results
table does not exist (all files unprocessed). -/
def get_unprocessed_audio_files (contents : Option (List S3Object))
    (processedKeys : Option (List String)) : List AudioFile :=
  let audio_files := audio_files_of contents
  if audio_files = [] then []
  else
    match processedKeys with
    | some keys => audio_files.filter (fun f => ! keys.contains f.file_key)
    | none => audio_files

/-! ## Job submitter: `start_transcribe_job` -/

/-- The argument record of `transcribe_client.start_transcription_job`. -/
structure TranscribeRequest where
  transcription_job_name : String
  media_file_uri : String
  media_format : String
  language_code : String
  output_bucket_name : String
  show_speaker_labels : Bool
  max_speaker_labels : Nat
  channel_identification : Bool
  show_alternatives : Bool
  deriving Repr, DecidableEq

/-- The dict returned by `start_transcribe_job`: the success dict carries
`media_uri` and no `error`, the failure dict carries `error` and no
`media_uri`; missing dict keys are `none`. -/
structure JobRecord where
  job_name : String
  status : String
  file_key : String
  file_name : String
  media_uri : Option String
  error : Option String
  submit_time : Nat
  deriving Repr, DecidableEq

/-- Source `job_name = f"transcribe_{file_name.replace('.', '_').replace(' ', '_')}_{int(time.time())}"`. -/
def job_name_for (file_name : String) (now : Nat) : String :=
  "transcribe_" ++ replace_char ' ' '_' (replace_char '.' '_' file_name) ++ "_" ++ toString now

/-- Source `media_uri = f"s3://{audio_bucket}/{file_key}"`. -/
def media_uri_for (file_key : String) : String :=
  "s3://" ++ audio_bucket ++ "/" ++ file_key

/-- The `format_mapping` dict literal. -/
def format_mapping : List (String × String) :=
  [("mp3", "mp3"), ("mp4", "mp4"), ("wav", "wav"), ("flac", "flac"),
   ("m4a", "mp4"), ("ogg", "ogg"), ("webm", "webm")]

/-- Source `file_format = file_name.split('.')[-1].lower()`. -/
def file_extension (file_name : String) : String :=
  lower_ascii (after_last '.' file_name)

/-- Source `media_format = format_mapping.get(file_format, 'mp3')`. -/
def media_format_for (file_name : String) : String :=
  (format_mapping.lookup (file_extension file_name)).getD "mp3"

/-- The request `start_transcribe_job` passes to
`start_transcription_job`. -/
def transcribe_request (file_key file_name : String) (now : Nat) : TranscribeRequest :=
  { transcription_job_name := job_name_for file_name now,
    media_file_uri := media_uri_for file_key,
    media_format := media_format_for file_name,
    language_code := "en-US",
    output_bucket_name := transcribe_output_bucket,
    show_speaker_labels := true,
    max_speaker_labels := 10,
    channel_identification := false,
    show_alternatives := false }

/-- Source `start_transcribe_job`: the `try/except` around the submission call
is the match on the oracle result; both branches return a dict, so no
exception propagates to the caller (the Lean return type is a plain
`JobRecord`, not `Except`). -/
def start_transcribe_job (submit : TranscribeRequest → Except String Unit)
    (now : Nat) (file_key file_name : String) : JobRecord :=
  match submit (transcribe_request file_key file_name now) with
  | .ok _ =>
    { job_name := job_name_for file_name now, status := "SUBMITTED",
      file_key := file_key, file_name := file_name,
      media_uri := some (media_uri_for file_key), error := none,
      submit_time := now }
  | .error e =>
    { job_name := job_name_for file_name now, status := "FAILED",
      file_key := file_key, file_name := file_name,
      media_uri := none, error := some e, submit_time := now }

/-! ## Poll loop: `check_transcription_status` and `poll_for_completion` -/

/-- The fields of `response['TranscriptionJob']` that
`check_transcription_status` reads (`job.get(...)` gives `none` for a
missing key). -/
structure StatusInfo where
  status : String
  transcript_uri : Option String
  completion_time : Option Nat
  failure_reason : Option String
  deriving Repr, DecidableEq

/-- The status oracle: job name and poll round (1-based) to either the
job data or a raised exception message. -/
def StatusOracle := String → Nat → Except String StatusInfo

/-- The dict returned by `check_transcription_status`: the `except`
branch returns `{job_name, status: 'ERROR', error}`; keys absent from a
branch are `none`. -/
structure StatusRecord where
  job_name : String
  status : String
  transcript_uri : Option String
  completion_time : Option Nat
  failure_reason : Option String
  error : Option String
  deriving Repr, DecidableEq

/-- Source `check_transcription_status(job_name)` at poll round `round`. -/
def check_transcription_status (oracle : StatusOracle) (round : Nat)
    (job_name : String) : StatusRecord :=
  match oracle job_name round with
  | .ok job =>
    { job_name := job_name, status := job.status,
      transcript_uri := job.transcript_uri,
      completion_time := job.completion_time,
      failure_reason := job.failure_reason, error := none }
  | .error e =>
    { job_name := job_name, status := "ERROR", transcript_uri := none,
      completion_time := none, failure_reason := none, error := some e }

/-- Source test `status['status'] in ['COMPLETED', 'FAILED']`. -/
def isTerminalStatus (s : String) : Bool :=
  s = "COMPLETED" || s = "FAILED"

/-- One round of the inner `for job_name in job_names:` loop: the pair of
newly completed records (in encounter order) and the `remaining` list. -/
def pollRound (oracle : StatusOracle) (round : Nat) :
    List String → List StatusRecord × List String
  | [] => ([], [])
  | job_name :: rest =>
    let status := check_transcription_status oracle round job_name
    let pr := pollRound oracle round rest
    if isTerminalStatus status.status then (status :: pr.1, pr.2)
    else (pr.1, job_name :: pr.2)

/-- The loop state of `poll_for_completion`, instrumented with the
number of rounds run, status queries issued and sleeps performed. -/
structure PollState where
  completed : List StatusRecord
  outstanding : List String
  elapsed : Nat
  rounds : Nat
  queries : Nat
  sleeps : Nat
  deriving Repr, DecidableEq

/-- One iteration of the `while` body: query every outstanding job,
append the terminal ones to `completed`, replace `job_names` by
`remaining`, and sleep `poll_interval` only if jobs remain. -/
def pollStep (oracle : StatusOracle) (pollInterval : Nat) (s : PollState) : PollState :=
  let dr := pollRound oracle (s.rounds + 1) s.outstanding
  { completed := s.completed ++ dr.1,
    outstanding := dr.2,
    elapsed := if dr.2 = [] then s.elapsed else s.elapsed + pollInterval,
    rounds := s.rounds + 1,
    queries := s.queries + s.outstanding.length,
    sleeps := if dr.2 = [] then s.sleeps else s.sleeps + 1 }

/-- The `while job_names and (time.time() - start_time) < max_wait_seconds:`
loop, with fuel (see the header comment: fuel `max_wait_seconds + 1`
never runs out when `poll_interval ≥ 1`). -/
def pollAux (oracle : StatusOracle) (maxWaitSeconds pollInterval : Nat) :
    Nat → PollState → PollState
  | 0, s => s
  | fuel + 1, s =>
    if s.outstanding = [] ∨ maxWaitSeconds ≤ s.elapsed then s
    else pollAux oracle maxWaitSeconds pollInterval fuel (pollStep oracle pollInterval s)

/-- The loop state on entry to `poll_for_completion`. -/
def initState (jobNames : List String) : PollState :=
  { completed := [], outstanding := jobNames, elapsed := 0,
    rounds := 0, queries := 0, sleeps := 0 }

/-- Source `poll_for_completion` including its final loop state: the early
`if not job_names: return []` is the `if`, and `max_wait_seconds =
max_wait_minutes * 60`.  The function's Python return value is the
`completed` field (`poll_for_completion` below); `outstanding` is the
`job_names` variable at loop exit (reported in the timeout message). -/
def poll_full (oracle : StatusOracle) (jobNames : List String)
    (maxWaitMinutes pollInterval : Nat) : PollState :=
  if jobNames = [] then initState jobNames
  else
    pollAux oracle (maxWaitMinutes * 60) pollInterval (maxWaitMinutes * 60 + 1)
      (initState jobNames)

/-- The list `poll_for_completion` returns. -/
def poll_for_completion (oracle : StatusOracle) (jobNames : List String)
    (maxWaitMinutes pollInterval : Nat) : List StatusRecord :=
  (poll_full oracle jobNames maxWaitMinutes pollInterval).completed

/-! ## Result parser: `parse_transcription_result` -/

/-- JSON/Python values as delivered by `response.json()`. -/
inductive JValue where
  | null
  | str (s : String)
  | num (n : Int)
  | bool (b : Bool)
  | arr (xs : List JValue)
  | obj (fields : List (String × JValue))
  deriving Repr

/-- Python `v.get(key, dflt)`: only dicts have `.get`; on anything else
Python raises `AttributeError`. -/
def jgetD (v : JValue) (key : String) (dflt : JValue) : Except String JValue :=
  match v with
  | .obj fields =>
    match fields.lookup key with
    | some x => .ok x
    | none => .ok dflt
  | _ => .error "AttributeError"

/-- Python `v[0]`: first element of a list (IndexError when empty),
first character of a string, and the corresponding exceptions on other
values. -/
def jindex0 : JValue → Except String JValue
  | .arr [] => .error "IndexError"
  | .arr (x :: _) => .ok x
  | .str s =>
    match s.data with
    | [] => .error "IndexError"
    | c :: _ => .ok (.str (String.mk [c]))
  | .obj _ => .error "KeyError"
  | _ => .error "TypeError"

/-- The dict returned by `parse_transcription_result`.  `raw_json` keeps
the fetched document itself (the source stores `json.dumps` of it). -/
structure ParsedResult where
  full_transcript : JValue
  items : JValue
  speaker_labels : JValue
  raw_json : JValue
  deriving Repr

/-- Source `results.get('transcripts', [{}])[0].get('transcript', '')` — the
`full_transcript` expression of the source, with each step's possible
exception propagated. -/
def extract_full_transcript (results : JValue) : Except String JValue :=
  match jgetD results "transcripts" (.arr [.obj []]) with
  | .error e => .error e
  | .ok transcripts =>
    match jindex0 transcripts with
    | .error e => .error e
    | .ok first => jgetD first "transcript" (.str "")

/-- Source `parse_transcription_result` applied to the fetched document (the
HTTP fetch is factored out; see header).  A raised Python exception is
an `.error`. -/
def parse_transcription_result (transcript_data : JValue) : Except String ParsedResult :=
  match jgetD transcript_data "results" (.obj []) with
  | .error e => .error e
  | .ok results =>
    match extract_full_transcript results with
    | .error e => .error e
    | .ok full =>
      match jgetD results "items" (.arr []) with
      | .error e => .error e
      | .ok items =>
        match jgetD results "speaker_labels" (.obj []) with
        | .error e => .error e
        | .ok sl =>
          match jgetD sl "segments" (.arr []) with
          | .error e => .error e
          | .ok segments =>
            .ok { full_transcript := full, items := items,
                  speaker_labels := segments, raw_json := transcript_data }

/-! ## Batch loop: building `transcription_records` -/

/-- One row appended to `transcription_records`. -/
structure TranscriptionRecord where
  job_name : String
  file_key : Option String
  file_name : Option String
  transcript_text : JValue
  transcript_json : JValue
  transcription_timestamp : Option Nat
  ingestion_timestamp : Nat
  deriving Repr

/-- The body of the `for job in completed_jobs:` loop for one job:
`none` when the job is skipped (wrong status, missing/empty
`transcript_uri` — Python truthiness — or the `except` branch after a
parse failure), `some` record otherwise.  `fetch` is the HTTP oracle
from transcript URI to document. -/
def record_for_job (fetch : String → JValue) (submitted_jobs : List JobRecord)
    (now : Nat) (job : StatusRecord) : Option TranscriptionRecord :=
  match job.transcript_uri with
  | none => none
  | some uri =>
    if job.status = "COMPLETED" ∧ uri ≠ "" then
      match parse_transcription_result (fetch uri) with
      | .error _ => none
      | .ok parsed =>
        let original_file := submitted_jobs.find? (fun f => f.job_name == job.job_name)
        some { job_name := job.job_name,
               file_key := original_file.map (fun f => f.file_key),
               file_name := original_file.map (fun f => f.file_name),
               transcript_text := parsed.full_transcript,
               transcript_json := parsed.raw_json,
               transcription_timestamp := job.completion_time,
               ingestion_timestamp := now }
    else none

/-- The whole `transcription_records` loop: each completed job
contributes its `record_for_job` outcome, independently of the others
(the per-job `try/except` confines a parse failure to its own job). -/
def transcription_records (fetch : String → JValue) (submitted_jobs : List JobRecord)
    (now : Nat) (completed_jobs : List StatusRecord) : List TranscriptionRecord :=
  completed_jobs.filterMap (record_for_job fetch submitted_jobs now)

/-! ## Poll loop lemmas -/

/-- The loop body is not entered when the `while` condition fails. -/
lemma pollAux_stop (oracle : StatusOracle) (mw p fuel : Nat) (s : PollState)
    (h : s.outstanding = [] ∨ mw ≤ s.elapsed) :
    pollAux oracle mw p fuel s = s := by
  cases fuel with
  | zero => rfl
  | succ n => simp [pollAux, h]

/-- Unfolding one executed iteration. -/
lemma pollAux_run (oracle : StatusOracle) (mw p fuel : Nat) (s : PollState)
    (h : ¬(s.outstanding = [] ∨ mw ≤ s.elapsed)) :
    pollAux oracle mw p (fuel + 1) s = pollAux oracle mw p fuel (pollStep oracle p s) := by
  simp [pollAux, h]

/-- Fuel splits: running `f₁ + f₂` iterations is running `f₁` then `f₂`. -/
lemma pollAux_add (oracle : StatusOracle) (mw p : Nat) (f₁ f₂ : Nat) (s : PollState) :
    pollAux oracle mw p (f₁ + f₂) s = pollAux oracle mw p f₂ (pollAux oracle mw p f₁ s) := by
  induction f₁ generalizing s with
  | zero => simp [pollAux]
  | succ n ih =>
    by_cases h : s.outstanding = [] ∨ mw ≤ s.elapsed
    · rw [pollAux_stop oracle mw p (n + 1 + f₂) s h, pollAux_stop oracle mw p (n + 1) s h,
        pollAux_stop oracle mw p f₂ s h]
    · rw [show n + 1 + f₂ = (n + f₂) + 1 from by omega,
        pollAux_run oracle mw p (n + f₂) s h, pollAux_run oracle mw p n s h, ih]

/-- Records already in `completed` stay there. -/
lemma pollAux_completed_mono (oracle : StatusOracle) (mw p fuel : Nat) (s : PollState)
    (rec : StatusRecord) (h : rec ∈ s.completed) :
    rec ∈ (pollAux oracle mw p fuel s).completed := by
  induction fuel generalizing s with
  | zero => exact h
  | succ n ih =>
    by_cases hc : s.outstanding = [] ∨ mw ≤ s.elapsed
    · rw [pollAux_stop oracle mw p (n + 1) s hc]; exact h
    · rw [pollAux_run oracle mw p n s hc]
      exact ih (pollStep oracle p s) (List.mem_append_left _ h)

/-- A record produced by a round is the status-check dict of one of the
round's job names, and its status is terminal. -/
lemma pollRound_done_sound (oracle : StatusOracle) (r : Nat) (ns : List String)
    (rec : StatusRecord) (h : rec ∈ (pollRound oracle r ns).1) :
    ∃ x, x ∈ ns ∧ rec = check_transcription_status oracle r x ∧
      isTerminalStatus rec.status = true := by
  induction ns with
  | nil => simp [pollRound] at h
  | cons j rest ih =>
    by_cases ht : isTerminalStatus (check_transcription_status oracle r j).status = true
    · rw [pollRound, if_pos ht] at h
      rcases List.mem_cons.mp h with h1 | h2
      · exact ⟨j, List.mem_cons_self j rest, h1, h1 ▸ ht⟩
      · obtain ⟨x, hx, hrec, hterm⟩ := ih h2
        exact ⟨x, List.mem_cons_of_mem j hx, hrec, hterm⟩
    · rw [pollRound, if_neg ht] at h
      obtain ⟨x, hx, hrec, hterm⟩ := ih h
      exact ⟨x, List.mem_cons_of_mem j hx, hrec, hterm⟩

/-- The status-check dict carries the queried job's name. -/
lemma check_job_name (oracle : StatusOracle) (r : Nat) (j : String) :
    (check_transcription_status oracle r j).job_name = j := by
  cases h : oracle j r <;> simp [check_transcription_status, h]

/-- A job whose status check is not terminal in this round stays in
`remaining`. -/
lemma pollRound_rem_of_nonterminal (oracle : StatusOracle) (r : Nat) (ns : List String)
    (j : String) (hmem : j ∈ ns)
    (hnt : isTerminalStatus (check_transcription_status oracle r j).status = false) :
    j ∈ (pollRound oracle r ns).2 := by
  induction ns with
  | nil => simp at hmem
  | cons a rest ih =>
    rcases List.mem_cons.mp hmem with h1 | h2
    · subst h1
      rw [pollRound, if_neg (by simp [hnt])]
      exact List.mem_cons_self _ _
    · by_cases ht : isTerminalStatus (check_transcription_status oracle r a).status = true
      · rw [pollRound, if_pos ht]; exact ih h2
      · rw [pollRound, if_neg ht]; exact List.mem_cons_of_mem a (ih h2)

/-- A job whose status check is terminal in this round contributes its
status dict to the round's completed list. -/
lemma pollRound_done_of_terminal (oracle : StatusOracle) (r : Nat) (ns : List String)
    (j : String) (hmem : j ∈ ns)
    (ht : isTerminalStatus (check_transcription_status oracle r j).status = true) :
    check_transcription_status oracle r j ∈ (pollRound oracle r ns).1 := by
  induction ns with
  | nil => simp at hmem
  | cons a rest ih =>
    rcases List.mem_cons.mp hmem with h1 | h2
    · subst h1
      rw [pollRound, if_pos ht]
      exact List.mem_cons_self _ _
    · by_cases hta : isTerminalStatus (check_transcription_status oracle r a).status = true
      · rw [pollRound, if_pos hta]; exact List.mem_cons_of_mem _ (ih h2)
      · rw [pollRound, if_neg hta]; exact ih h2

/-- When every job in the round is non-terminal, the round completes
nothing and keeps the job list unchanged. -/
lemma pollRound_all_nonterminal (oracle : StatusOracle) (r : Nat) (ns : List String)
    (h : ∀ j ∈ ns, isTerminalStatus (check_transcription_status oracle r j).status = false) :
    pollRound oracle r ns = ([], ns) := by
  induction ns with
  | nil => rfl
  | cons a rest ih =>
    rw [pollRound, if_neg (by simp [h a (List.mem_cons_self a rest)]),
      ih (fun j hj => h j (List.mem_cons_of_mem a hj))]

/-- When no outstanding job ever reaches a terminal status, the loop
never changes `completed` or `outstanding`. -/
lemma pollAux_nonterminal_invariant (oracle : StatusOracle) (mw p fuel : Nat)
    (s : PollState)
    (h : ∀ j ∈ s.outstanding, ∀ r,
      isTerminalStatus (check_transcription_status oracle r j).status = false) :
    (pollAux oracle mw p fuel s).outstanding = s.outstanding ∧
      (pollAux oracle mw p fuel s).completed = s.completed := by
  induction fuel generalizing s with
  | zero => exact ⟨rfl, rfl⟩
  | succ n ih =>
    by_cases hc : s.outstanding = [] ∨ mw ≤ s.elapsed
    · rw [pollAux_stop oracle mw p (n + 1) s hc]; exact ⟨rfl, rfl⟩
    · rw [pollAux_run oracle mw p n s hc]
      have hround : pollRound oracle (s.rounds + 1) s.outstanding = ([], s.outstanding) :=
        pollRound_all_nonterminal oracle _ _ (fun j hj => h j hj (s.rounds + 1))
      have hstep : (pollStep oracle p s).outstanding = s.outstanding ∧
          (pollStep oracle p s).completed = s.completed := by
        simp [pollStep, hround]
      obtain ⟨ho, hcomp⟩ := ih (pollStep oracle p s) (by rw [hstep.1]; exact h)
      exact ⟨by rw [ho, hstep.1], by rw [hcomp, hstep.2]⟩

/-- Termination bound: with a positive poll interval and enough fuel,
the loop exits only because the job list is empty or the elapsed time
reached the maximum wait. -/
lemma pollAux_exit (oracle : StatusOracle) (mw p : Nat) :
    ∀ fuel (s : PollState), mw < s.elapsed + fuel * p →
      (pollAux oracle mw p fuel s).outstanding = [] ∨
        mw ≤ (pollAux oracle mw p fuel s).elapsed := by
  intro fuel
  induction fuel with
  | zero =>
    intro s hs
    right
    simpa [pollAux] using Nat.le_of_lt (by simpa using hs)
  | succ n ih =>
    intro s hs
    by_cases hc : s.outstanding = [] ∨ mw ≤ s.elapsed
    · rw [pollAux_stop oracle mw p (n + 1) s hc]; exact hc
    · rw [pollAux_run oracle mw p n s hc]
      by_cases hrem : (pollRound oracle (s.rounds + 1) s.outstanding).2 = []
      · have : (pollStep oracle p s).outstanding = [] := by simp [pollStep, hrem]
        rw [pollAux_stop oracle mw p n _ (Or.inl this)]
        exact Or.inl this
      · apply ih
        have he : (pollStep oracle p s).elapsed = s.elapsed + p := by
          simp [pollStep, hrem]
        rw [he]
        calc mw < s.elapsed + (n + 1) * p := hs
          _ = s.elapsed + p + n * p := by ring

/-! ## Claim theorems: poll loop -/

/-- C3: with a positive poll interval the loop exits exactly at
`outstanding = [] ∨ max_wait ≤ elapsed`; and when every job of a
non-empty set stays non-terminal (`IN_PROGRESS`) on every query, the
returned completed set is empty, the remaining set is the full
(non-empty) job set, and the elapsed time has reached the maximum
wait. -/
theorem C3_poll_terminates_at_timeout (oracle : StatusOracle) (jobNames : List String)
    (m p : Nat) (hp : 1 ≤ p) :
    ((poll_full oracle jobNames m p).outstanding = [] ∨
      m * 60 ≤ (poll_full oracle jobNames m p).elapsed) ∧
    (jobNames ≠ [] →
      (∀ j ∈ jobNames, ∀ r,
        isTerminalStatus (check_transcription_status oracle r j).status = false) →
      poll_for_completion oracle jobNames m p = [] ∧
      (poll_full oracle jobNames m p).outstanding = jobNames ∧
      m * 60 ≤ (poll_full oracle jobNames m p).elapsed) := by
  by_cases hjn : jobNames = []
  · subst hjn
    refine ⟨Or.inl rfl, fun h _ => absurd rfl h⟩
  · have hfull : poll_full oracle jobNames m p =
        pollAux oracle (m * 60) p (m * 60 + 1) (initState jobNames) := by
      simp [poll_full, hjn]
    have hbound : m * 60 < (initState jobNames).elapsed + (m * 60 + 1) * p := by
      have h1 : (m * 60 + 1) * 1 ≤ (m * 60 + 1) * p := Nat.mul_le_mul_left _ hp
      simp [initState]
      omega
    have hexit := pollAux_exit oracle (m * 60) p (m * 60 + 1) (initState jobNames) hbound
    constructor
    · rw [hfull]; exact hexit
    · intro _ hnt
      have hinv := pollAux_nonterminal_invariant oracle (m * 60) p (m * 60 + 1)
        (initState jobNames) (fun j hj r => hnt j hj r)
      have hout : (poll_full oracle jobNames m p).outstanding = jobNames := by
        rw [hfull]; exact hinv.1
      refine ⟨?_, hout, ?_⟩
      · show (poll_full oracle jobNames m p).completed = []
        rw [hfull]; exact hinv.2
      · rcases hexit with h | h
        · rw [hinv.1] at h; exact absurd h hjn
        · rw [hfull]; exact h

/-- C9: polling an empty job collection returns the empty completed
list at once — zero status queries, zero sleeps, zero loop rounds —
whatever the maximum wait and the poll interval are. -/
theorem C9_empty_job_list (oracle : StatusOracle) (m p : Nat) :
    poll_for_completion oracle [] m p = [] ∧
    (poll_full oracle [] m p).queries = 0 ∧
    (poll_full oracle [] m p).sleeps = 0 ∧
    (poll_full oracle [] m p).rounds = 0 :=
  ⟨rfl, rfl, rfl, rfl⟩

/-- A status oracle whose every query raises. -/
def raising_oracle : StatusOracle := fun _ _ => .error "ConnectionError"

/-- C1 (evaluation at the failing input): when every status query for
`job1` raises, the job is NOT moved out of the outstanding set — with
`max_wait_minutes = 1`, `poll_interval = 30` the loop queries it again
in round 2 (2 queries in total), and at timeout the job is still
outstanding with nothing completed.  The `except` branch of
`check_transcription_status` yields status `ERROR`, which the loop's
terminal test `in ['COMPLETED', 'FAILED']` does not recognise. -/
theorem C1_raising_query_repolled_until_timeout :
    (poll_full raising_oracle ["job1"] 1 30).queries = 2 ∧
    (poll_full raising_oracle ["job1"] 1 30).outstanding = ["job1"] ∧
    (poll_full raising_oracle ["job1"] 1 30).completed = [] ∧
    (poll_full raising_oracle ["job1"] 1 30).rounds = 2 :=
  ⟨rfl, rfl, rfl, rfl⟩

/-- C2: a job whose status query answers `IN_PROGRESS` on every round
before `k` and `COMPLETED` on round `k` (with the loop still inside its
time budget at round `k`) is placed in the returned completed set; it
is placed there exactly at round `k` — after `k` rounds the loop has
run `k` rounds and holds the job's `COMPLETED` record, while after any
`i < k` rounds no record of the job is in the completed set. -/
theorem C2_completed_after_exactly_k_rounds (oracle : StatusOracle)
    (jobNames : List String) (j : String) (m p k : Nat)
    (hj : j ∈ jobNames) (hk : 1 ≤ k) (hp : 1 ≤ p)
    (htime : (k - 1) * p < m * 60)
    (hprog : ∀ r, 1 ≤ r → r < k →
      (check_transcription_status oracle r j).status = "IN_PROGRESS")
    (hdone : (check_transcription_status oracle k j).status = "COMPLETED") :
    check_transcription_status oracle k j ∈ poll_for_completion oracle jobNames m p ∧
    (check_transcription_status oracle k j).job_name = j ∧
    (pollAux oracle (m * 60) p k (initState jobNames)).rounds = k ∧
    check_transcription_status oracle k j ∈
      (pollAux oracle (m * 60) p k (initState jobNames)).completed ∧
    (∀ i, i < k → ∀ rec,
      rec ∈ (pollAux oracle (m * 60) p i (initState jobNames)).completed →
      rec.job_name ≠ j) := by
  -- invariant over the rounds strictly before round k
  have inv : ∀ i, i < k →
      j ∈ (pollAux oracle (m * 60) p i (initState jobNames)).outstanding ∧
      (∀ rec ∈ (pollAux oracle (m * 60) p i (initState jobNames)).completed,
        rec.job_name ≠ j) ∧
      (pollAux oracle (m * 60) p i (initState jobNames)).elapsed = i * p ∧
      (pollAux oracle (m * 60) p i (initState jobNames)).rounds = i := by
    intro i
    induction i with
    | zero =>
      intro _
      exact ⟨hj, by simp [pollAux, initState], by simp [pollAux, initState], rfl⟩
    | succ n ih =>
      intro hn1
      obtain ⟨hjo, hcomp, hel, hrd⟩ := ih (Nat.lt_of_succ_lt hn1)
      set S := pollAux oracle (m * 60) p n (initState jobNames) with hS
      have hcond : ¬(S.outstanding = [] ∨ m * 60 ≤ S.elapsed) := by
        push_neg
        refine ⟨fun h0 => ?_, ?_⟩
        · rw [h0] at hjo; exact absurd hjo (List.not_mem_nil j)
        · rw [hel]
          have hle : n * p ≤ (k - 1) * p := Nat.mul_le_mul_right p (by omega)
          omega
      have hstep : pollAux oracle (m * 60) p (n + 1) (initState jobNames) =
          pollStep oracle p S := by
        rw [pollAux_add oracle (m * 60) p n 1 (initState jobNames), ← hS,
          pollAux_run oracle (m * 60) p 0 S hcond]
        rfl
      have hnt : isTerminalStatus
          (check_transcription_status oracle (n + 1) j).status = false := by
        rw [hprog (n + 1) (by omega) hn1]; rfl
      have hr : S.rounds + 1 = n + 1 := by rw [hrd]
      have hjrem : j ∈ (pollRound oracle (S.rounds + 1) S.outstanding).2 := by
        rw [hr]
        exact pollRound_rem_of_nonterminal oracle (n + 1) S.outstanding j hjo hnt
      have hremne : (pollRound oracle (S.rounds + 1) S.outstanding).2 ≠ [] :=
        List.ne_nil_of_mem hjrem
      refine ⟨?_, ?_, ?_, ?_⟩
      · rw [hstep]; exact hjrem
      · rw [hstep]
        intro rec hrec
        rcases List.mem_append.mp hrec with hold | hnew
        · exact hcomp rec hold
        · obtain ⟨x, _, hrx, hterm⟩ := pollRound_done_sound oracle _ _ rec hnew
          intro hname
          have hxj : x = j := by rw [hrx] at hname; rwa [check_job_name] at hname
          rw [hrx, hxj, hr] at hterm
          rw [hnt] at hterm
          exact Bool.false_ne_true hterm
      · rw [hstep]
        show (if (pollRound oracle (S.rounds + 1) S.outstanding).2 = []
            then S.elapsed else S.elapsed + p) = (n + 1) * p
        rw [if_neg hremne, hel]; ring
      · rw [hstep]
        show S.rounds + 1 = n + 1
        exact hr
  -- the state just before round k
  obtain ⟨hjo, hcomp, hel, hrd⟩ := inv (k - 1) (by omega)
  set S := pollAux oracle (m * 60) p (k - 1) (initState jobNames) with hS
  have hcond : ¬(S.outstanding = [] ∨ m * 60 ≤ S.elapsed) := by
    push_neg
    refine ⟨fun h0 => ?_, ?_⟩
    · rw [h0] at hjo; exact absurd hjo (List.not_mem_nil j)
    · rw [hel]; omega
  have hstepk : pollAux oracle (m * 60) p k (initState jobNames) =
      pollStep oracle p S := by
    rw [show k = (k - 1) + 1 from by omega,
      pollAux_add oracle (m * 60) p (k - 1) 1 (initState jobNames), ← hS,
      pollAux_run oracle (m * 60) p 0 S hcond]
    rfl
  have hr : S.rounds + 1 = k := by rw [hrd]; omega
  have ht : isTerminalStatus (check_transcription_status oracle k j).status = true := by
    rw [hdone]; rfl
  have hmemk : check_transcription_status oracle k j ∈
      (pollStep oracle p S).completed := by
    show check_transcription_status oracle k j ∈
      S.completed ++ (pollRound oracle (S.rounds + 1) S.outstanding).1
    apply List.mem_append_right
    rw [hr]
    exact pollRound_done_of_terminal oracle k S.outstanding j hjo ht
  have hkfuel : k ≤ m * 60 := by
    have hle : (k - 1) * 1 ≤ (k - 1) * p := Nat.mul_le_mul_left _ hp
    omega
  have hne : jobNames ≠ [] := List.ne_nil_of_mem hj
  have hfull : poll_full oracle jobNames m p =
      pollAux oracle (m * 60) p (m * 60 + 1) (initState jobNames) := by
    simp [poll_full, hne]
  have hsplit : pollAux oracle (m * 60) p (m * 60 + 1) (initState jobNames) =
      pollAux oracle (m * 60) p (m * 60 + 1 - k)
        (pollAux oracle (m * 60) p k (initState jobNames)) := by
    rw [← pollAux_add oracle (m * 60) p k (m * 60 + 1 - k) (initState jobNames),
      show k + (m * 60 + 1 - k) = m * 60 + 1 from by omega]
  refine ⟨?_, check_job_name oracle k j, ?_, ?_, fun i hi rec hrec => (inv i hi).2.1 rec hrec⟩
  · show check_transcription_status oracle k j ∈ (poll_full oracle jobNames m p).completed
    rw [hfull, hsplit]
    apply pollAux_completed_mono
    rw [hstepk]
    exact hmemk
  · rw [hstepk]
    show S.rounds + 1 = k
    exact hr
  · rw [hstepk]
    exact hmemk

/-- Status oracle for the C2 witness: `IN_PROGRESS` in round 1,
`COMPLETED` from round 2 on. -/
def two_round_oracle : StatusOracle := fun _ r =>
  .ok { status := if r < 2 then "IN_PROGRESS" else "COMPLETED",
        transcript_uri := none, completion_time := none, failure_reason := none }

/-- Witness for C2 at `k = 2`, one job, `max_wait_minutes = 1`,
`poll_interval = 30`. -/
theorem C2_witness :
    check_transcription_status two_round_oracle 2 "job1" ∈
      poll_for_completion two_round_oracle ["job1"] 1 30 ∧
    (pollAux two_round_oracle (1 * 60) 30 2 (initState ["job1"])).rounds = 2 := by
  have h := C2_completed_after_exactly_k_rounds two_round_oracle ["job1"] "job1" 1 30 2
    (by decide) (by decide) (by decide) (by decide)
    (by intro r h1 h2
        have hr1 : r = 1 := by omega
        subst hr1
        rfl)
    rfl
  exact ⟨h.1, h.2.2.1⟩

/-- Status oracle for the C3 witness: every query answers `IN_PROGRESS`. -/
def always_in_progress_oracle : StatusOracle := fun _ _ =>
  .ok { status := "IN_PROGRESS", transcript_uri := none,
        completion_time := none, failure_reason := none }

/-- Witness for C3: one perpetually `IN_PROGRESS` job with
`max_wait_minutes = 1`, `poll_interval = 30`. -/
theorem C3_witness :
    poll_for_completion always_in_progress_oracle ["job1"] 1 30 = [] ∧
    (poll_full always_in_progress_oracle ["job1"] 1 30).outstanding = ["job1"] ∧
    1 * 60 ≤ (poll_full always_in_progress_oracle ["job1"] 1 30).elapsed :=
  (C3_poll_terminates_at_timeout always_in_progress_oracle ["job1"] 1 30 (by decide)).2
    (by decide) (fun j _ r => rfl)

/-! ## Parser lemmas and claim theorems -/

/-- Python `dict.get` on an object is total: the looked-up value or the default. -/
lemma jgetD_obj (fs : List (String × JValue)) (key : String) (dflt : JValue) :
    jgetD (.obj fs) key dflt = .ok ((fs.lookup key).getD dflt) := by
  cases h : fs.lookup key <;> simp [jgetD, h]

/-- A fetched document whose `transcripts` list is present but empty:
`results.get('transcripts', [{}])[0]` raises `IndexError` on it. -/
def empty_transcripts_doc : JValue :=
  .obj [("results", .obj [("transcripts", .arr [])])]

/-- C4 counterexample: on a document whose `transcripts` list is empty
the parser raises `IndexError` instead of returning the empty string. -/
theorem C4_counterexample :
    parse_transcription_result empty_transcripts_doc = .error "IndexError" := rfl

/-- C4 (amended): the transcript text is the `transcript` field of the
first element of the `transcripts` list (empty string when that field
is absent); a missing `transcripts` key defaults to `[{}]` and hence to
the empty string; but a present-and-empty `transcripts` list raises
`IndexError` rather than yielding the empty string.  The last conjunct
ties the projection to `parse_transcription_result`'s output field. -/
theorem C4_full_transcript_projection (fs gs : List (String × JValue)) (rest : List JValue) :
    (fs.lookup "transcripts" = none →
      extract_full_transcript (.obj fs) = .ok (.str "")) ∧
    (fs.lookup "transcripts" = some (.arr []) →
      extract_full_transcript (.obj fs) = .error "IndexError") ∧
    (fs.lookup "transcripts" = some (.arr (.obj gs :: rest)) →
      extract_full_transcript (.obj fs) = .ok ((gs.lookup "transcript").getD (.str ""))) ∧
    (∀ doc results r, jgetD doc "results" (.obj []) = .ok results →
      parse_transcription_result doc = .ok r →
      extract_full_transcript results = .ok r.full_transcript) := by
  refine ⟨?_, ?_, ?_, ?_⟩
  · intro h
    simp [extract_full_transcript, jgetD_obj, h, jindex0, jgetD]
  · intro h
    simp [extract_full_transcript, jgetD_obj, h, jindex0]
  · intro h
    simp [extract_full_transcript, jgetD_obj, h, jindex0]
  · intro doc results r h1 h2
    simp only [parse_transcription_result, h1] at h2
    cases hfx : extract_full_transcript results with
    | error e => simp [hfx] at h2
    | ok full =>
      simp only [hfx] at h2
      cases hit : jgetD results "items" (.arr []) with
      | error e => simp [hit] at h2
      | ok items =>
        simp only [hit] at h2
        cases hsl : jgetD results "speaker_labels" (.obj []) with
        | error e => simp [hsl] at h2
        | ok sl =>
          simp only [hsl] at h2
          cases hseg : jgetD sl "segments" (.arr []) with
          | error e => simp [hseg] at h2
          | ok segments =>
            simp only [hseg, Except.ok.injEq] at h2
            rw [← h2]

/-- Witness for C4: a one-element transcript list yields its text, an
empty one raises, a missing `transcripts` key yields the empty string. -/
theorem C4_witness :
    extract_full_transcript
        (.obj [("transcripts", JValue.arr [.obj [("transcript", JValue.str "hey")]])]) =
      .ok (.str "hey") ∧
    extract_full_transcript (.obj [("transcripts", JValue.arr [])]) =
      .error "IndexError" ∧
    extract_full_transcript (.obj []) = .ok (.str "") :=
  ⟨(C4_full_transcript_projection
      [("transcripts", .arr [.obj [("transcript", .str "hey")]])]
      [("transcript", .str "hey")] []).2.2.1 rfl,
   (C4_full_transcript_projection [("transcripts", .arr [])] [] []).2.1 rfl,
   (C4_full_transcript_projection [] [] []).1 rfl⟩

/-- C6 counterexample: `empty_transcripts_doc` lacks the
`speaker_labels` key, yet parsing raises (`IndexError` from the empty
`transcripts` list) instead of returning an empty segment list. -/
theorem C6_counterexample :
    ([("transcripts", JValue.arr [])] : List (String × JValue)).lookup "speaker_labels" =
      none ∧
    parse_transcription_result empty_transcripts_doc = .error "IndexError" :=
  ⟨rfl, rfl⟩

/-- C6 (amended): when the `results` object lacks `speaker_labels` and
the transcript-text extraction succeeds, parsing succeeds with an empty
speaker-segment list; the missing key is never itself a cause of
failure. -/
theorem C6_missing_speaker_labels_empty_segments (doc full : JValue)
    (fs : List (String × JValue))
    (hres : jgetD doc "results" (.obj []) = .ok (.obj fs))
    (hnone : fs.lookup "speaker_labels" = none)
    (hfull : extract_full_transcript (.obj fs) = .ok full) :
    parse_transcription_result doc =
      .ok { full_transcript := full, items := (fs.lookup "items").getD (.arr []),
            speaker_labels := .arr [], raw_json := doc } := by
  simp only [parse_transcription_result, hres, hfull, jgetD_obj, hnone, Option.getD]
  rfl

/-- A well-formed fetched document with transcript text and no
`speaker_labels` key. -/
def good_doc : JValue :=
  .obj [("results", .obj [("transcripts", .arr [.obj [("transcript", .str "hello")]])])]

/-- Witness for C6 on `good_doc`. -/
theorem C6_witness :
    parse_transcription_result good_doc =
      .ok { full_transcript := .str "hello", items := .arr [],
            speaker_labels := .arr [], raw_json := good_doc } :=
  C6_missing_speaker_labels_empty_segments good_doc (.str "hello")
    [("transcripts", .arr [.obj [("transcript", .str "hello")]])] rfl rfl rfl

/-! ## Batch-loop claim (C5) -/

/-- HTTP oracle for the batch-loop examples: `u1` serves the malformed
document, anything else the well-formed one. -/
def fetch_map : String → JValue := fun uri =>
  if uri = "u1" then empty_transcripts_doc else good_doc

/-- A completed job whose output document is malformed. -/
def bad_doc_job : StatusRecord :=
  { job_name := "j1", status := "COMPLETED", transcript_uri := some "u1",
    completion_time := none, failure_reason := none, error := none }

/-- A completed job with a well-formed output document. -/
def good_doc_job : StatusRecord :=
  { job_name := "j2", status := "COMPLETED", transcript_uri := some "u2",
    completion_time := none, failure_reason := none, error := none }

/-- C5 counterexample: in a batch of two completed jobs where the first
job's document is malformed (empty `transcripts` list), the loop emits
only the second job's record — the first job is skipped entirely, not
recorded with empty default field values. -/
theorem C5_counterexample :
    transcription_records fetch_map [] 0 [bad_doc_job, good_doc_job] =
      [{ job_name := "j2", file_key := none, file_name := none,
         transcript_text := .str "hello", transcript_json := good_doc,
         transcription_timestamp := none, ingestion_timestamp := 0 }] := rfl

/-- C5 (amended): each job of the batch contributes its own record (or
nothing) independently of every other job, so one job's parse failure
never blocks the others; and a job whose document fails to parse is
skipped — `record_for_job` yields `none`, not an empty-default row. -/
theorem C5_parse_failure_isolated (fetch : String → JValue) (subs : List JobRecord)
    (now : Nat) (xs ys : List StatusRecord) (job : StatusRecord) :
    transcription_records fetch subs now (xs ++ job :: ys) =
      transcription_records fetch subs now xs ++
      (record_for_job fetch subs now job).toList ++
      transcription_records fetch subs now ys ∧
    (∀ uri e, job.transcript_uri = some uri →
      parse_transcription_result (fetch uri) = .error e →
      record_for_job fetch subs now job = none) := by
  constructor
  · simp only [transcription_records, List.filterMap_append, List.filterMap_cons]
    cases h : record_for_job fetch subs now job <;>
      simp [h, List.append_assoc]
  · intro uri e hu he
    simp only [record_for_job, hu]
    by_cases hc : job.status = "COMPLETED" ∧ uri ≠ ""
    · simp [hc, he]
    · simp [hc]

/-- Witness for C5: the malformed-document job of the counterexample
batch is skipped by `record_for_job`. -/
theorem C5_witness : record_for_job fetch_map [] 0 bad_doc_job = none :=
  (C5_parse_failure_isolated fetch_map [] 0 [] [] bad_doc_job).2 "u1" "IndexError" rfl rfl

/-! ## Lister claim (C7) -/

/-- C7: with the results table holding `keys`, the lister's output is
exactly the set difference on `file_key` — a listed audio file is
returned iff its key is not among the already-processed keys, and no
other file is excluded. -/
theorem C7_left_anti_is_set_difference (objs : List S3Object) (keys : List String)
    (f : AudioFile) :
    f ∈ get_unprocessed_audio_files (some objs) (some keys) ↔
      f ∈ audio_files_of (some objs) ∧ f.file_key ∉ keys := by
  by_cases hempty : audio_files_of (some objs) = []
  · simp [get_unprocessed_audio_files, hempty]
  · simp [get_unprocessed_audio_files, hempty, List.mem_filter]

/-! ## Submitter claims (C8, C10) -/

/-- C8: a rejected submission is caught and recorded — the returned
record has status `FAILED` and carries the error message (nothing
propagates, as the return type shows); an accepted one yields
`SUBMITTED` and no error. -/
theorem C8_submission_failure_recorded (submit : TranscribeRequest → Except String Unit)
    (now : Nat) (file_key file_name : String) :
    (∀ e, submit (transcribe_request file_key file_name now) = .error e →
      (start_transcribe_job submit now file_key file_name).status = "FAILED" ∧
      (start_transcribe_job submit now file_key file_name).error = some e) ∧
    (∀ u, submit (transcribe_request file_key file_name now) = .ok u →
      (start_transcribe_job submit now file_key file_name).status = "SUBMITTED" ∧
      (start_transcribe_job submit now file_key file_name).error = none) := by
  constructor
  · intro e he
    simp [start_transcribe_job, he]
  · intro u hu
    simp [start_transcribe_job, hu]

/-- A Transcribe client that rejects every job-creation request. -/
def rejecting_submit : TranscribeRequest → Except String Unit :=
  fun _ => .error "BadRequestException"

/-- A Transcribe client that accepts every job-creation request. -/
def accepting_submit : TranscribeRequest → Except String Unit :=
  fun _ => .ok ()

/-- Witness for C8 on a concrete file. -/
theorem C8_witness :
    (start_transcribe_job rejecting_submit 0 "call-recordings/a.mp3" "a.mp3").status =
      "FAILED" ∧
    (start_transcribe_job rejecting_submit 0 "call-recordings/a.mp3" "a.mp3").error =
      some "BadRequestException" ∧
    (start_transcribe_job accepting_submit 0 "call-recordings/a.mp3" "a.mp3").status =
      "SUBMITTED" := by
  have hf := (C8_submission_failure_recorded rejecting_submit 0
    "call-recordings/a.mp3" "a.mp3").1 "BadRequestException" rfl
  have hs := (C8_submission_failure_recorded accepting_submit 0
    "call-recordings/a.mp3" "a.mp3").2 () rfl
  exact ⟨hf.1, hf.2, hs.1⟩

/-- An extension outside the `format_mapping` keys looks up to `none`. -/
lemma format_mapping_lookup_none (e : String)
    (h : e ∉ ["mp3", "mp4", "wav", "flac", "m4a", "ogg", "webm"]) :
    format_mapping.lookup e = none := by
  simp only [List.mem_cons, List.not_mem_nil, or_false, not_or] at h
  obtain ⟨h1, h2, h3, h4, h5, h6, h7⟩ := h
  simp [format_mapping, List.lookup, beq_eq_false_iff_ne.mpr h1,
    beq_eq_false_iff_ne.mpr h2, beq_eq_false_iff_ne.mpr h3, beq_eq_false_iff_ne.mpr h4,
    beq_eq_false_iff_ne.mpr h5, beq_eq_false_iff_ne.mpr h6, beq_eq_false_iff_ne.mpr h7]

/-- C10: a file whose (lower-cased) extension is not a `format_mapping`
key is submitted with the default media format `mp3`, and an `m4a` file
is submitted with media format `mp4`. -/
theorem C10_media_format_mapping (fn : String) :
    (file_extension fn ∉ ["mp3", "mp4", "wav", "flac", "m4a", "ogg", "webm"] →
      ∀ fk now, (transcribe_request fk fn now).media_format = "mp3") ∧
    (file_extension fn = "m4a" →
      ∀ fk now, (transcribe_request fk fn now).media_format = "mp4") := by
  constructor
  · intro h fk now
    show (format_mapping.lookup (file_extension fn)).getD "mp3" = "mp3"
    rw [format_mapping_lookup_none _ h]
    rfl
  · intro h fk now
    show (format_mapping.lookup (file_extension fn)).getD "mp3" = "mp4"
    rw [h]
    rfl

/-- Witness for C10: an unknown extension `xyz` and an `m4a` file. -/
theorem C10_witness :
    (transcribe_request "call-recordings/clip.xyz" "clip.xyz" 0).media_format = "mp3" ∧
    (transcribe_request "call-recordings/voice.m4a" "voice.m4a" 0).media_format = "mp4" :=
  ⟨(C10_media_format_mapping "clip.xyz").1 (by decide) "call-recordings/clip.xyz" 0,
   (C10_media_format_mapping "voice.m4a").2 (by decide) "call-recordings/voice.m4a" 0⟩
